import Mathlib

/-!
Verification of the pokedex-assistant tool-orchestration layer and streaming
conversation driver.  The definitions below are a shallow embedding of the
TypeScript source:

* `src/lib/orchestrator/cache.ts`   — `IntelligentCache` (TTL + LRU store,
  `generateCacheKey`, `hashString`, `evictLeastRecentlyUsed`)
* `src/lib/orchestrator/orchestrator.ts` — `ToolOrchestrator`
  (`executeTool`, `executeWithRetries`, `checkRateLimit`, `validateInput`,
  `getMetrics`, `healthCheck`)
* `src/app/api/chat/route.ts`       — `processConversation` (the streaming
  driver: chunk accumulation, tool-call JSON buffering, bounded recursion).

JavaScript `Record<string, any>` values are modelled as the inductive `JVal`
(JSON values whose numbers are restricted to integers — every number the
claims touch is an integer, and the hash arithmetic is exact on them).
Maps are association lists; wall-clock instants are naturals (milliseconds).
-/

namespace Pokedex

/-- JSON-like runtime values (`any` in the TypeScript source), with numbers
restricted to integers. -/
inductive JVal where
  | str (s : String)
  | num (n : Int)
  | bool (b : Bool)
  | null
  | arr (elems : List JVal)
  | obj (fields : List (String × JVal))

/-- First-match lookup in an association list, mirroring JavaScript property
access on an object (a real JS object has no duplicate keys, so first-match
agrees with property access). -/
def lookupKV {α : Type} : List (String × α) → String → Option α
  | [], _ => none
  | (k, v) :: rest, key => if key = k then some v else lookupKV rest key

theorem lookupKV_isSome_iff {α : Type} (l : List (String × α)) (key : String) :
    (lookupKV l key).isSome ↔ key ∈ l.map Prod.fst := by
  induction l with
  | nil => simp [lookupKV]
  | cons hd tl ih =>
    obtain ⟨k, v⟩ := hd
    by_cases h : key = k <;> simp [lookupKV, h, ih]

/-- Hex digit in lowercase, as produced by JavaScript string escapes. -/
def hexDigit (n : Nat) : Char :=
  if n < 10 then Char.ofNat (48 + n) else Char.ofNat (87 + n)

/-- JSON string escaping as performed by `JSON.stringify` (QuoteJSONString). -/
def escapeChar (c : Char) : String :=
  if c = '"' then "\\\""
  else if c = '\\' then "\\\\"
  else if c.toNat = 8 then "\\b"
  else if c.toNat = 9 then "\\t"
  else if c.toNat = 10 then "\\n"
  else if c.toNat = 12 then "\\f"
  else if c.toNat = 13 then "\\r"
  else if c.toNat < 32 then
    "\\u00" ++ String.mk [hexDigit (c.toNat / 16), hexDigit (c.toNat % 16)]
  else String.singleton c

/-- Quote a string as a JSON string literal. -/
def quoteJson (s : String) : String :=
  "\"" ++ String.join (s.toList.map escapeChar) ++ "\""

/-- `JSON.stringify(value, replacer)` with an array replacer `R`
(ECMAScript SerializeJSONProperty): every object, at every nesting level, is
filtered to the properties named in `R`, emitted in the order of `R`; arrays
are not filtered.  `renderJFields` pre-renders each field's value so the
recursion is structural; `assembleObj` then selects and orders the rendered
fields by `R`, which is extensionally the ECMAScript traversal. -/
def assembleObj (R : List String) (rendered : List (String × String)) : List String :=
  R.filterMap (fun k => (lookupKV rendered k).map (fun sv => quoteJson k ++ ":" ++ sv))

mutual

def stringifyVal (R : List String) : JVal → String
  | .str s => quoteJson s
  | .num n => toString n
  | .bool b => if b then "true" else "false"
  | .null => "null"
  | .arr elems => "[" ++ String.intercalate "," (stringifyElems R elems) ++ "]"
  | .obj fields =>
      "\x7b" ++ String.intercalate "," (assembleObj R (renderJFields R fields)) ++ "\x7d"

def stringifyElems (R : List String) : List JVal → List String
  | [] => []
  | v :: rest => stringifyVal R v :: stringifyElems R rest

def renderJFields (R : List String) : List (String × JVal) → List (String × String)
  | [] => []
  | (k, v) :: rest => (k, stringifyVal R v) :: renderJFields R rest

end

/-- `Object.keys(input).sort()`: the object's own keys (insertion order),
sorted lexicographically. -/
def sortedKeys (input : List (String × JVal)) : List String :=
  List.insertionSort (fun a b => a ≤ b) (input.map Prod.fst)

/-- Wrap an integer to signed 32-bit, as JavaScript ToInt32 (`x & x`, `<<`). -/
def toInt32 (n : Int) : Int :=
  (n + 2 ^ 31) % 2 ^ 32 - 2 ^ 31

/-- One step of `hashString`'s loop:
`hash = ((hash << 5) - hash) + char; hash = hash & hash`. -/
def hashStep (h : Int) (c : Nat) : Int :=
  toInt32 (toInt32 (h * 32) - h + c)

/-- Digits of `Math.abs(hash).toString(36)` (lowercase base-36; the digit
alphabet 0-9a-z extends `hexDigit`).  Structural recursion on a fuel bound;
`fuel = n + 1` always suffices because the argument strictly shrinks under
division by 36. -/
def base36DigitsAux : Nat → Nat → List Char
  | 0, _ => []
  | fuel + 1, n =>
    if n < 36 then [hexDigit n]
    else base36DigitsAux fuel (n / 36) ++ [hexDigit (n % 36)]

def base36Digits (n : Nat) : List Char :=
  base36DigitsAux (n + 1) n

/-- `IntelligentCache.hashString` (cache.ts:163-171): the 32-bit rolling hash
of the string, absolute value, rendered in base 36. -/
def hashString (s : String) : String :=
  String.mk (base36Digits (s.toList.foldl (fun h c => hashStep h c.toNat) 0).natAbs)

/-- `IntelligentCache.generateCacheKey` (cache.ts:133-137):
`toolName + ":" + hashString(JSON.stringify(input, Object.keys(input).sort()))`. -/
def generateCacheKey (toolName : String) (input : List (String × JVal)) : String :=
  toolName ++ ":" ++ hashString (stringifyVal (sortedKeys input) (JVal.obj input))

theorem renderJFields_lookup (R : List String) (fs : List (String × JVal)) (k : String) :
    lookupKV (renderJFields R fs) k = (lookupKV fs k).map (stringifyVal R) := by
  induction fs with
  | nil => simp [renderJFields, lookupKV]
  | cons hd tl ih =>
    obtain ⟨k', v⟩ := hd
    by_cases h : k = k' <;> simp [renderJFields, lookupKV, h, ih]

theorem assembleObj_congr (R : List String) (a b : List (String × JVal))
    (hval : ∀ k, lookupKV a k = lookupKV b k) :
    assembleObj R (renderJFields R a) = assembleObj R (renderJFields R b) := by
  unfold assembleObj
  congr 1
  funext k
  rw [renderJFields_lookup, renderJFields_lookup, hval]

theorem stringifyVal_obj (R : List String) (fields : List (String × JVal)) :
    stringifyVal R (JVal.obj fields) =
      "\x7b" ++ String.intercalate "," (assembleObj R (renderJFields R fields)) ++ "\x7d" := by
  simp [stringifyVal]

/-- C2: for every tool name and for all inputs `a` and `b` that are equal as
mappings (same keys, each mapped to equal values, regardless of insertion
order), `generateCacheKey` produces the same key: the input is serialized
with its keys sorted lexicographically before hashing and the key is
`toolName ++ ":" ++ hashString serialized`. -/
theorem generateCacheKey_deterministic (tool : String) (a b : List (String × JVal))
    (ha : (a.map Prod.fst).Nodup) (hb : (b.map Prod.fst).Nodup)
    (hval : ∀ k, lookupKV a k = lookupKV b k) :
    generateCacheKey tool a = generateCacheKey tool b := by
  have hkeys : ∀ k, k ∈ a.map Prod.fst ↔ k ∈ b.map Prod.fst := by
    intro k
    rw [← lookupKV_isSome_iff, ← lookupKV_isSome_iff, hval k]
  have hperm : (a.map Prod.fst).Perm (b.map Prod.fst) :=
    (List.perm_ext_iff_of_nodup ha hb).2 hkeys
  have hsort : sortedKeys a = sortedKeys b := by
    haveI : IsAntisymm String (fun a b : String => a ≤ b) := ⟨fun _ _ h h2 => le_antisymm h h2⟩
    apply List.eq_of_perm_of_sorted (r := fun a b => a ≤ b)
      (((List.perm_insertionSort _ _).trans hperm).trans (List.perm_insertionSort _ _).symm)
    · exact List.sorted_insertionSort _ _
    · exact List.sorted_insertionSort _ _
  unfold generateCacheKey
  rw [hsort, stringifyVal_obj, stringifyVal_obj, assembleObj_congr _ a b hval]

/-- Witness for C2: the two-field input in its two insertion orders. -/
theorem generateCacheKey_deterministic_witness :
    ([("x", JVal.num 1), ("y", JVal.num 2)].map Prod.fst).Nodup ∧
      generateCacheKey "t" [("x", JVal.num 1), ("y", JVal.num 2)] =
        generateCacheKey "t" [("y", JVal.num 2), ("x", JVal.num 1)] := by
  refine ⟨by decide, generateCacheKey_deterministic "t" _ _ (by decide) (by decide) ?_⟩
  intro k
  by_cases hx : k = "x" <;> by_cases hy : k = "y" <;>
    simp_all [lookupKV]

/-! ## JavaScript `Map` as an insertion-ordered association list -/

/-- `Map.prototype.set`: replace in place when the key is present, append
when it is new. -/
def mapSet {α : Type} : List (String × α) → String → α → List (String × α)
  | [], key, v => [(key, v)]
  | (k, w) :: rest, key, v =>
    if key = k then (key, v) :: rest else (k, w) :: mapSet rest key v

/-- `Map.prototype.has`. -/
def mapHas {α : Type} (l : List (String × α)) (key : String) : Bool :=
  (lookupKV l key).isSome

/-- `Map.prototype.delete`: remove the entry with the given key. -/
def mapDelete {α : Type} : List (String × α) → String → List (String × α)
  | [], _ => []
  | (k, w) :: rest, key => if key = k then rest else (k, w) :: mapDelete rest key

theorem lookupKV_mapSet {α : Type} (l : List (String × α)) (key k2 : String) (v : α) :
    lookupKV (mapSet l key v) k2 = if k2 = key then some v else lookupKV l k2 := by
  induction l with
  | nil => by_cases h : k2 = key <;> simp [mapSet, lookupKV, h]
  | cons hd tl ih =>
    obtain ⟨k, w⟩ := hd
    by_cases hk : key = k
    · subst hk
      by_cases h2 : k2 = key <;> simp [mapSet, lookupKV, h2]
    · by_cases h2 : k2 = k
      · subst h2
        have : ¬ k2 = key := fun h => hk h.symm
        simp [mapSet, hk, lookupKV, this]
      · simp [mapSet, hk, lookupKV, h2, ih]

theorem mapSet_map_fst_of_mem {α : Type} (l : List (String × α)) (key : String) (v : α)
    (h : key ∈ l.map Prod.fst) :
    (mapSet l key v).map Prod.fst = l.map Prod.fst := by
  induction l with
  | nil => simp at h
  | cons hd tl ih =>
    obtain ⟨k, w⟩ := hd
    by_cases hk : key = k
    · simp [mapSet, hk]
    · simp only [List.map_cons, List.mem_cons] at h
      rcases h with h | h

      · exact absurd h hk
      · simp [mapSet, hk, ih h]

theorem mapSet_map_fst_of_not_mem {α : Type} (l : List (String × α)) (key : String) (v : α)
    (h : key ∉ l.map Prod.fst) :
    (mapSet l key v).map Prod.fst = l.map Prod.fst ++ [key] := by
  induction l with
  | nil => simp [mapSet]
  | cons hd tl ih =>
    obtain ⟨k, w⟩ := hd
    simp only [List.map_cons, List.mem_cons, not_or] at h
    simp [mapSet, h.1, ih h.2]

theorem mapDelete_map_fst {α : Type} (l : List (String × α)) (key : String) :
    (mapDelete l key).map Prod.fst = (l.map Prod.fst).erase key := by
  induction l with
  | nil => simp [mapDelete]
  | cons hd tl ih =>
    obtain ⟨k, w⟩ := hd
    by_cases hk : key = k
    · subst hk
      simp [mapDelete, List.erase_cons_head]
    · have : ¬ k = key := fun h => hk h.symm
      simp [mapDelete, hk, List.erase_cons_tail, this, ih]

/-! ## IntelligentCache (cache.ts) -/

structure CacheConfig where
  maxSize : Nat
  defaultTtlMs : Nat
  enableMetrics : Bool

structure CacheEntry (α : Type) where
  data : α
  timestamp : Nat
  ttlMs : Nat
  hits : Nat

structure CacheCounters where
  hits : Nat
  misses : Nat
  evictions : Nat

/-- The mutable state of an `IntelligentCache` instance. -/
structure CacheState (α : Type) where
  cache : List (String × CacheEntry α)
  accessOrder : List (String × Nat)
  accessCounter : Nat
  counters : CacheCounters

def CacheState.empty (α : Type) : CacheState α :=
  ⟨[], [], 0, ⟨0, 0, 0⟩⟩

/-- `IntelligentCache.get` (cache.ts:35-75).  `now` is `Date.now()` in
milliseconds.  Returns the value (or `none` on miss/expiry) and the updated
state. -/
def cacheGet {α : Type} (st : CacheState α) (key : String) (now : Nat) :
    Option α × CacheState α :=
  match lookupKV st.cache key with
  | none =>
    (none, { st with counters := { st.counters with misses := st.counters.misses + 1 } })
  | some entry =>
    let age := now - entry.timestamp
    if age > entry.ttlMs then
      (none, { st with
        cache := mapDelete st.cache key
        accessOrder := mapDelete st.accessOrder key
        counters := { st.counters with misses := st.counters.misses + 1 } })
    else
      (some entry.data, { st with
        accessOrder := mapSet st.accessOrder key (st.accessCounter + 1)
        accessCounter := st.accessCounter + 1
        cache := mapSet st.cache key { entry with hits := entry.hits + 1 }
        counters := { st.counters with hits := st.counters.hits + 1 } })

/-- The body of `evictLeastRecentlyUsed`'s scan (cache.ts:139-148):
`lruAccess` starts at `Infinity`, so the first entry is always adopted;
afterwards an entry replaces the candidate only when strictly smaller. -/
def lruStep (acc : Option (String × Nat)) (kv : String × Nat) : Option (String × Nat) :=
  match acc with
  | none => some kv
  | some best => if kv.2 < best.2 then some kv else some best

def findLRU (l : List (String × Nat)) : Option (String × Nat) :=
  l.foldl lruStep none

/-- `IntelligentCache.evictLeastRecentlyUsed` (cache.ts:139-161). -/
def evictLeastRecentlyUsed {α : Type} (st : CacheState α) : CacheState α :=
  match findLRU st.accessOrder with
  | none => st
  | some (lruKey, _) =>
    { st with
      cache := mapDelete st.cache lruKey
      accessOrder := mapDelete st.accessOrder lruKey
      counters := { st.counters with evictions := st.counters.evictions + 1 } }

/-- `IntelligentCache.set` (cache.ts:77-100). -/
def cacheSet {α : Type} (cfg : CacheConfig) (st : CacheState α) (key : String) (data : α)
    (ttlMs : Option Nat) (now : Nat) : CacheState α :=
  let effectiveTtl := ttlMs.getD cfg.defaultTtlMs
  let st1 :=
    if cfg.maxSize ≤ st.cache.length ∧ mapHas st.cache key = false then
      evictLeastRecentlyUsed st
    else st
  { st1 with
    cache := mapSet st1.cache key ⟨data, now, effectiveTtl, 0⟩
    accessOrder := mapSet st1.accessOrder key (st1.accessCounter + 1)
    accessCounter := st1.accessCounter + 1 }

theorem lruStep_go (l : List (String × Nat)) : ∀ best : String × Nat,
    ∃ r, l.foldl lruStep (some best) = some r ∧ (r ∈ l ∨ r = best) ∧
      r.2 ≤ best.2 ∧ ∀ p ∈ l, r.2 ≤ p.2 := by
  induction l with
  | nil => intro best; exact ⟨best, rfl, Or.inr rfl, le_refl _, by simp⟩
  | cons hd tl ih =>
    intro best
    simp only [List.foldl_cons]
    rcases lt_or_ge hd.2 best.2 with hlt | hge
    · have hstep : lruStep (some best) hd = some hd := by simp [lruStep, hlt]
      rw [hstep]
      obtain ⟨r, hr, hmem, hle, hall⟩ := ih hd
      refine ⟨r, hr, ?_, le_trans hle (le_of_lt hlt), ?_⟩
      · rcases hmem with h | h
        · exact Or.inl (List.mem_cons_of_mem _ h)
        · exact Or.inl (h ▸ List.mem_cons_self _ _)
      · intro p hp
        rcases List.mem_cons.1 hp with h | h
        · exact h ▸ hle
        · exact hall p h
    · have hstep : lruStep (some best) hd = some best := by
        simp [lruStep, not_lt.2 hge]
      rw [hstep]
      obtain ⟨r, hr, hmem, hle, hall⟩ := ih best
      refine ⟨r, hr, ?_, hle, ?_⟩
      · rcases hmem with h | h
        · exact Or.inl (List.mem_cons_of_mem _ h)
        · exact Or.inr h
      · intro p hp
        rcases List.mem_cons.1 hp with h | h
        · exact h ▸ le_trans hle hge
        · exact hall p h

theorem findLRU_spec (l : List (String × Nat)) (hne : l ≠ []) :
    ∃ k a, findLRU l = some (k, a) ∧ (k, a) ∈ l ∧ ∀ p ∈ l, a ≤ p.2 := by
  match l, hne with
  | hd :: tl, _ =>
    have hstep : lruStep none hd = some hd := rfl
    obtain ⟨r, hr, hmem, hle, hall⟩ := lruStep_go tl hd
    refine ⟨r.1, r.2, ?_, ?_, ?_⟩
    · simpa [findLRU, hstep] using hr
    · rcases hmem with h | h
      · exact List.mem_cons_of_mem _ h
      · exact h ▸ List.mem_cons_self _ _
    · intro p hp
      rcases List.mem_cons.1 hp with h | h
      · exact h ▸ hle
      · exact hall p h

/-- C5: when the cache holds `maxSize` entries and `set` is called with a key
not already present, exactly one entry is evicted — the entry whose recency
counter (the monotonically increasing access counter, not wall-clock time) is
smallest among current entries: the new key set is the old one minus that
entry plus the new key, and the eviction counter rises by one.  A `set` with
an already-present key evicts nothing.  Every write assigns a fresh counter
value (`accessCounter` increments). -/
theorem cacheSet_lru_eviction {α : Type} (cfg : CacheConfig) (st : CacheState α)
    (key : String) (data : α) (ttl : Option Nat) (now : Nat)
    (hkeys : ∀ k, k ∈ st.accessOrder.map Prod.fst ↔ k ∈ st.cache.map Prod.fst)
    (hlen : st.cache.length = cfg.maxSize) (hpos : 0 < cfg.maxSize) :
    (lookupKV st.cache key = none →
      ∃ k a, (k, a) ∈ st.accessOrder ∧ (∀ p ∈ st.accessOrder, a ≤ p.2) ∧
        (cacheSet cfg st key data ttl now).cache.map Prod.fst
          = ((st.cache.map Prod.fst).erase k) ++ [key] ∧
        (cacheSet cfg st key data ttl now).counters.evictions
          = st.counters.evictions + 1) ∧
    (lookupKV st.cache key ≠ none →
      (cacheSet cfg st key data ttl now).cache.map Prod.fst = st.cache.map Prod.fst ∧
      (cacheSet cfg st key data ttl now).counters.evictions = st.counters.evictions) ∧
    (cacheSet cfg st key data ttl now).accessCounter = st.accessCounter + 1 := by
  have hAC : ∀ (s : CacheState α), (evictLeastRecentlyUsed s).accessCounter = s.accessCounter := by
    intro s
    unfold evictLeastRecentlyUsed
    cases findLRU s.accessOrder with
    | none => rfl
    | some kv => obtain ⟨k0, a0⟩ := kv; rfl
  refine ⟨?_, ?_, ?_⟩
  · intro hnew
    have hkeymem : key ∉ st.cache.map Prod.fst := by
      rw [← lookupKV_isSome_iff, hnew]
      simp
    have hAne : st.accessOrder ≠ [] := by
      have hc : st.cache ≠ [] := by
        intro h
        rw [h] at hlen
        simp at hlen
        omega
      obtain ⟨p, hp⟩ := List.exists_mem_of_ne_nil st.cache hc
      have hm : p.1 ∈ st.cache.map Prod.fst := List.mem_map_of_mem _ hp
      have hm2 := (hkeys p.1).2 hm
      intro h0
      rw [h0] at hm2
      simp at hm2
    obtain ⟨k, a, hfind, hmem, hmin⟩ := findLRU_spec st.accessOrder hAne
    have hevict : evictLeastRecentlyUsed st =
        { st with
          cache := mapDelete st.cache k
          accessOrder := mapDelete st.accessOrder k
          counters := { st.counters with evictions := st.counters.evictions + 1 } } := by
      simp [evictLeastRecentlyUsed, hfind]
    have hcond : cfg.maxSize ≤ st.cache.length ∧ mapHas st.cache key = false :=
      ⟨hlen ▸ le_refl _, by simp [mapHas, hnew]⟩
    refine ⟨k, a, hmem, hmin, ?_, ?_⟩
    · simp only [cacheSet, if_pos hcond, hevict]
      rw [mapSet_map_fst_of_not_mem]
      · rw [mapDelete_map_fst]
      · rw [mapDelete_map_fst]
        intro hkmem
        exact hkeymem (List.mem_of_mem_erase hkmem)
    · simp only [cacheSet, if_pos hcond, hevict]
  · intro hsome
    have hkeymem : key ∈ st.cache.map Prod.fst := by
      rw [← lookupKV_isSome_iff]
      cases h : lookupKV st.cache key with
      | none => exact absurd h hsome
      | some v => simp
    have hcond : ¬(cfg.maxSize ≤ st.cache.length ∧ mapHas st.cache key = false) := by
      rintro ⟨-, hfalse⟩
      rw [mapHas] at hfalse
      cases h : lookupKV st.cache key with
      | none => exact hsome h
      | some v => rw [h] at hfalse; simp at hfalse
    refine ⟨?_, ?_⟩
    · simp only [cacheSet, if_neg hcond]
      exact mapSet_map_fst_of_mem _ _ _ hkeymem
    · simp only [cacheSet, if_neg hcond]
  · simp only [cacheSet]
    split
    · simp [hAC]
    · rfl

def lruCfg : CacheConfig := ⟨2, 100, true⟩

def lruSt : CacheState Nat :=
  cacheSet lruCfg (cacheSet lruCfg (CacheState.empty Nat) "a" 1 none 0) "b" 2 none 0

/-- Witness for C5: a two-entry cache at capacity 2; setting the fresh key
"c" evicts exactly the least-recently-used entry. -/
theorem cacheSet_lru_eviction_witness :
    lookupKV lruSt.cache "c" = none ∧
      (∃ k a, (k, a) ∈ lruSt.accessOrder ∧ (∀ p ∈ lruSt.accessOrder, a ≤ p.2) ∧
        (cacheSet lruCfg lruSt "c" 3 none 5).cache.map Prod.fst
          = ((lruSt.cache.map Prod.fst).erase k) ++ ["c"] ∧
        (cacheSet lruCfg lruSt "c" 3 none 5).counters.evictions
          = lruSt.counters.evictions + 1) := by
  refine ⟨rfl, (cacheSet_lru_eviction lruCfg lruSt "c" 3 none 5 ?_ ?_ ?_).1 rfl⟩
  · intro k
    exact Iff.rfl
  · rfl
  · decide

/-- `IntelligentCache.getMetrics` (cache.ts:122-131); rates are rationals. -/
def cacheHitRate {α : Type} (st : CacheState α) : ℚ :=
  let total := st.counters.hits + st.counters.misses
  if 0 < total then (st.counters.hits : ℚ) / (total : ℚ) else 0

/-! ## Error taxonomy (errors.ts) -/

inductive ErrorCode where
  | INVALID_INPUT
  | MISSING_REQUIRED_FIELD
  | INVALID_FIELD_TYPE
  | TOOL_NOT_FOUND
  | TOOL_EXECUTION_FAILED
  | TOOL_TIMEOUT
  | RATE_LIMIT_EXCEEDED
  | EXTERNAL_API_ERROR
  | NETWORK_ERROR
  | API_UNAVAILABLE
  | INTERNAL_ERROR
  | CONFIGURATION_ERROR
  | RESOURCE_EXHAUSTED
deriving DecidableEq, Repr

structure OrchestrationError where
  code : ErrorCode
  message : String
deriving DecidableEq, Repr

/-- A thrown JavaScript value as seen by a `catch` block: either an
`OrchestrationError` or some other `Error`. -/
inductive ThrownError where
  | orchestration (e : OrchestrationError)
  | other (message : String)
deriving DecidableEq, Repr

/-- `OrchestrationError.fromUnknown` (errors.ts:76-96); `none` models a
`null`/non-`Error` argument. -/
def OrchestrationError.fromUnknown : Option ThrownError → OrchestrationError
  | some (.orchestration e) => e
  | some (.other msg) => ⟨.INTERNAL_ERROR, msg⟩
  | none => ⟨.INTERNAL_ERROR, "An unknown error occurred"⟩

def RateLimitError (toolName : String) (limit windowMs : Nat) : OrchestrationError :=
  ⟨.RATE_LIMIT_EXCEEDED,
    "Rate limit exceeded for tool " ++ toolName ++ ": " ++ toString limit ++
      " requests per " ++ toString windowMs ++ "ms"⟩

def ValidationError (message : String) : OrchestrationError :=
  ⟨.INVALID_INPUT, message⟩

def ToolNotFoundError (toolName : String) : OrchestrationError :=
  ⟨.TOOL_NOT_FOUND, "Tool " ++ toolName ++ " not found"⟩

/-! ## Tool definitions and results (orchestrator types) -/

structure RetryConfig where
  maxAttempts : Nat
  backoffMs : Nat
  exponential : Bool

structure RateLimitCfg where
  maxRequests : Nat
  windowMs : Nat

structure FieldSchema where
  type : Option String

structure InputSchema where
  required : List String
  properties : List (String × FieldSchema)

structure ToolDefinition where
  name : String
  description : String
  version : String
  category : String
  inputSchema : InputSchema
  rateLimit : Option RateLimitCfg
  timeout : Option Nat
  retryConfig : Option RetryConfig

structure ToolExecutionContext where
  toolName : String
  input : List (String × JVal)
  requestId : String
  timestamp : Nat

/-- A tool handler.  `execute ctx attempt` is the observable outcome of the
`beforeExecute`/`execute`/`afterExecute` sequence under its timeout on the
given retry attempt: `ok data` is the resolved `result.data`, `error e` a
rejection (a handler/hook throw or a `ToolTimeoutError` losing the race).
Indexing by the attempt number makes the changing external world explicit. -/
structure ToolHandler where
  execute : ToolExecutionContext → Nat → Except ThrownError JVal

/-- Execution metadata.  Wall-clock fields of the source
(`executionTimeMs`, `timestamp`) are outside this model, in which a call is
instantaneous. -/
structure ExecMetadata where
  attempts : Nat
  toolVersion : String
deriving DecidableEq, Repr

structure ToolExecutionResult where
  success : Bool
  data : Option JVal
  error : Option OrchestrationError
  metadata : ExecMetadata

def createSuccessResult (data : JVal) (version : String) (attempts : Nat) :
    ToolExecutionResult :=
  ⟨true, some data, none, ⟨attempts, version⟩⟩

def createErrorResult (e : OrchestrationError) (version : String) (attempts : Nat) :
    ToolExecutionResult :=
  ⟨false, none, some e, ⟨attempts, version⟩⟩

/-! ## executeWithRetries (orchestrator.ts:247-311) -/

/-- Outcome of the retry loop, with the backoff sleeps it inserted (in
order) and how many times it invoked the handler. -/
structure RetryOutcome where
  result : ToolExecutionResult
  delays : List Nat
  handlerCalls : Nat

/-- The `for (attempt = 1; attempt <= maxAttempts; attempt++)` loop.  `fuel`
is the number of iterations left (`maxAttempts - attempt + 1`); `attempts`
carries the source's `attempts` variable (last attempt index, 0 if the loop
never ran); `lastError` the last caught error. -/
def retryGo (cfg : RetryConfig) (version : String) (run : Nat → Except ThrownError JVal) :
    Nat → Nat → Nat → Option ThrownError → RetryOutcome
  | 0, _, attempts, lastError =>
    ⟨createErrorResult (OrchestrationError.fromUnknown lastError) version attempts, [], 0⟩
  | fuel + 1, attempt, _, _ =>
    match run attempt with
    | .ok data => ⟨createSuccessResult data version attempt, [], 1⟩
    | .error e =>
      let rest := retryGo cfg version run fuel (attempt + 1) attempt (some e)
      let delays :=
        if attempt < cfg.maxAttempts then
          (if cfg.exponential then cfg.backoffMs * 2 ^ (attempt - 1) else cfg.backoffMs)
            :: rest.delays
        else rest.delays
      ⟨rest.result, delays, rest.handlerCalls + 1⟩

/-- `ToolOrchestrator.executeWithRetries`. -/
def executeWithRetries (cfg : RetryConfig) (version : String)
    (run : Nat → Except ThrownError JVal) : RetryOutcome :=
  retryGo cfg version run cfg.maxAttempts 1 0 none

/-! ## Rate limiter (orchestrator.ts:401-433) -/

structure RateLimitEntry where
  requests : Nat
  windowStart : Nat
deriving DecidableEq, Repr

/-- `ToolOrchestrator.checkRateLimit`: fixed window over
`this.rateLimits`; a throw is the `error` branch, success returns the
updated map. -/
def checkRateLimit (limits : List (String × RateLimitEntry)) (toolName : String)
    (rateLimit : RateLimitCfg) (now : Nat) :
    Except OrchestrationError (List (String × RateLimitEntry)) :=
  match lookupKV limits toolName with
  | none => .ok (mapSet limits toolName ⟨1, now⟩)
  | some entry =>
    let windowAge := now - entry.windowStart
    if rateLimit.windowMs ≤ windowAge then
      .ok (mapSet limits toolName ⟨1, now⟩)
    else if rateLimit.maxRequests ≤ entry.requests then
      .error (RateLimitError toolName rateLimit.maxRequests rateLimit.windowMs)
    else
      .ok (mapSet limits toolName { entry with requests := entry.requests + 1 })

/-! ## Input validation (orchestrator.ts:359-399) -/

/-- `ToolOrchestrator.isValidType`: unknown declared types are valid
(forward-compatible).  `typeof x === "object" && x !== null && !Array.isArray(x)`
holds exactly for `JVal.obj`; integer numbers are never `NaN`. -/
def isValidType (v : JVal) (expectedType : String) : Bool :=
  if expectedType = "string" then (match v with | .str _ => true | _ => false)
  else if expectedType = "number" then (match v with | .num _ => true | _ => false)
  else if expectedType = "boolean" then (match v with | .bool _ => true | _ => false)
  else if expectedType = "array" then (match v with | .arr _ => true | _ => false)
  else if expectedType = "object" then (match v with | .obj _ => true | _ => false)
  else true

/-- The `for (field of required)` loop: first required field missing from
the input, if any. -/
def findMissingRequired (input : List (String × JVal)) : List String → Option String
  | [] => none
  | f :: rest =>
    if (lookupKV input f).isSome then findMissingRequired input rest else some f

/-- The `for ([field, value] of Object.entries(input))` loop: first input
field violating a declared type, if any. -/
def findTypeViolation (properties : List (String × FieldSchema)) :
    List (String × JVal) → Option String
  | [] => none
  | (k, v) :: rest =>
    match lookupKV properties k with
    | some fs =>
      match fs.type with
      | some t =>
        if isValidType v t then findTypeViolation properties rest else some k
      | none => findTypeViolation properties rest
    | none => findTypeViolation properties rest

/-- `ToolOrchestrator.validateInput`: `none` when the input passes, the
first `ValidationError` thrown otherwise. -/
def validateInput (tool : ToolDefinition) (input : List (String × JVal)) :
    Option OrchestrationError :=
  match findMissingRequired input tool.inputSchema.required with
  | some f => some (ValidationError ("Required field " ++ f ++ " is missing"))
  | none =>
    match findTypeViolation tool.inputSchema.properties input with
    | some f => some (ValidationError ("Field " ++ f ++ " has an invalid type"))
    | none => none

/-! ## The orchestrator (orchestrator.ts) -/

structure OrchestratorConfig where
  cache : CacheConfig
  globalTimeout : Nat
  enableMetrics : Bool
  enableRateLimiting : Bool
  retryDefaults : RetryConfig

structure MetricsState where
  totalRequests : Nat
  successfulRequests : Nat
  errorsByTool : List (String × Nat)
  requestsByTool : List (String × Nat)
  totalExecutionTime : Nat

structure OrchestratorState where
  tools : List (String × ToolDefinition)
  handlers : List (String × ToolHandler)
  cache : CacheState JVal
  rateLimits : List (String × RateLimitEntry)
  metrics : MetricsState

/-- `updateRequestMetrics` (orchestrator.ts:451-457). -/
def updateRequestMetrics (m : MetricsState) (toolName : String) : MetricsState :=
  { m with
    totalRequests := m.totalRequests + 1
    requestsByTool :=
      mapSet m.requestsByTool toolName ((lookupKV m.requestsByTool toolName).getD 0 + 1) }

/-- `updateErrorMetrics` (orchestrator.ts:459-464). -/
def updateErrorMetrics (m : MetricsState) (toolName : String) : MetricsState :=
  { m with
    errorsByTool :=
      mapSet m.errorsByTool toolName ((lookupKV m.errorsByTool toolName).getD 0 + 1) }

/-- `toolName.includes(s)`: substring containment. -/
def strIncludes (toolName s : String) : Bool :=
  decide (s.toList <:+: toolName.toList)

/-- `calculateCacheTtl` (orchestrator.ts:435-449). -/
def calculateCacheTtl (config : OrchestratorConfig) (toolName : String) : Nat :=
  if strIncludes toolName "pokemon" ∨ strIncludes toolName "species" then
    24 * 60 * 60 * 1000
  else if strIncludes toolName "team" ∨ strIncludes toolName "analysis" then
    4 * 60 * 60 * 1000
  else config.cache.defaultTtlMs

/-- JavaScript truthiness of a `JVal` (`if (cachedResult)`,
`result.success && result.data`). -/
def isTruthy : JVal → Bool
  | .str s => !(s = "")
  | .num n => !(n = 0)
  | .bool b => b
  | .null => false
  | .arr _ => true
  | .obj _ => true

/-- The rate-limiting step of `executeTool` (orchestrator.ts:129-131): the
limiter runs only when rate limiting is enabled and the tool configures a
limit; otherwise the limits map passes through unchanged. -/
def rateLimitStep (config : OrchestratorConfig) (limits : List (String × RateLimitEntry))
    (toolName : String) (tool : ToolDefinition) (now : Nat) :
    Except OrchestrationError (List (String × RateLimitEntry)) :=
  match config.enableRateLimiting, tool.rateLimit with
  | true, some rl => checkRateLimit limits toolName rl now
  | _, _ => .ok limits

/-- The write-through step of `executeTool` (orchestrator.ts:152-156):
cache the result only when it succeeded with truthy data. -/
def cacheWriteStep (config : OrchestratorConfig) (c : CacheState JVal) (cacheKey : String)
    (toolName : String) (result : ToolExecutionResult) (now : Nat) : CacheState JVal :=
  match result.success, result.data with
  | true, some d =>
    if isTruthy d then
      cacheSet config.cache c cacheKey d (some (calculateCacheTtl config toolName)) now
    else c
  | _, _ => c

/-- Per-call observables used by the claims: how many times the retry loop
invoked the handler (0 = the handler, its hooks and its timeout never ran),
how many cache lookups were performed, and the backoff sleeps inserted. -/
structure ExecTrace where
  handlerCalls : Nat
  cacheLookups : Nat
  delays : List Nat
deriving DecidableEq, Repr

/-- `ToolOrchestrator.executeTool` (orchestrator.ts:86-192).  `now` is the
wall clock at the call; the call itself is modelled as instantaneous
(durations contribute 0).  The `requestId` of the context is irrelevant to
every claim and fixed to `"req"` (the source draws a UUID).  Thrown
`ToolNotFound`/`RateLimit`/`Validation` errors are the `catch` branch:
`updateErrorMetrics` plus `createErrorResult(fromUnknown(e), "1.0.0", 1)`. -/
def executeTool (config : OrchestratorConfig) (st : OrchestratorState)
    (toolName : String) (input : List (String × JVal)) (now : Nat) :
    ToolExecutionResult × OrchestratorState × ExecTrace :=
  let st0 := { st with metrics := updateRequestMetrics st.metrics toolName }
  match lookupKV st0.tools toolName, lookupKV st0.handlers toolName with
  | some tool, some handler =>
    (match rateLimitStep config st0.rateLimits toolName tool now with
    | .error e =>
      (createErrorResult (OrchestrationError.fromUnknown (some (.orchestration e))) "1.0.0" 1,
        { st0 with metrics := updateErrorMetrics st0.metrics toolName }, ⟨0, 0, []⟩)
    | .ok newLimits =>
      let st1 := { st0 with rateLimits := newLimits }
      match validateInput tool input with
      | some e =>
        (createErrorResult (OrchestrationError.fromUnknown (some (.orchestration e))) "1.0.0" 1,
          { st1 with metrics := updateErrorMetrics st1.metrics toolName }, ⟨0, 0, []⟩)
      | none =>
        let cacheKey := generateCacheKey toolName input
        let got := cacheGet st1.cache cacheKey now
        let st2 := { st1 with cache := got.2 }
        let hit : Option JVal :=
          match got.1 with
          | some v => if isTruthy v then some v else none
          | none => none
        match hit with
        | some cached => (createSuccessResult cached tool.version 0, st2, ⟨0, 1, []⟩)
        | none =>
          let retryConfig := tool.retryConfig.getD config.retryDefaults
          let context : ToolExecutionContext := ⟨toolName, input, "req", now⟩
          let out := executeWithRetries retryConfig tool.version (handler.execute context)
          let st3 := { st2 with
            cache := cacheWriteStep config st2.cache cacheKey toolName out.result now }
          let st4 :=
            if out.result.success then
              { st3 with metrics :=
                { st3.metrics with
                  successfulRequests := st3.metrics.successfulRequests + 1 } }
            else
              { st3 with metrics := updateErrorMetrics st3.metrics toolName }
          (out.result, st4, ⟨out.handlerCalls, 1, out.delays⟩))
  | _, _ =>
    (createErrorResult
        (OrchestrationError.fromUnknown (some (.orchestration (ToolNotFoundError toolName))))
        "1.0.0" 1,
      { st0 with metrics := updateErrorMetrics st0.metrics toolName }, ⟨0, 0, []⟩)

/-- `getMetrics` (orchestrator.ts:197-212); rates as exact rationals. -/
def successRate (st : OrchestratorState) : ℚ :=
  if 0 < st.metrics.totalRequests then
    (st.metrics.successfulRequests : ℚ) / (st.metrics.totalRequests : ℚ)
  else 0

/-- `healthCheck` (orchestrator.ts:224-245): the status string computed from
the success rate. -/
def healthStatus (st : OrchestratorState) : String :=
  if (95 : ℚ) / 100 < successRate st then "healthy"
  else if (80 : ℚ) / 100 < successRate st then "degraded"
  else "unhealthy"

/-- C3: `executeWithRetries` with `maxAttempts = 3`: a handler failing on
attempts 1 and 2 and succeeding on attempt 3 yields `success = true` with
`metadata.attempts = 3`; a handler failing on every attempt yields
`success = false` carrying the last error with `metadata.attempts = 3`; and
the delay inserted after failed attempt `i` is `backoffMs` when the retry
config is constant and `backoffMs * 2 ^ (i - 1)` when exponential. -/
theorem executeWithRetries_three_attempts (b : Nat) (exp : Bool) (version : String)
    (run : Nat → Except ThrownError JVal) (e1 e2 : ThrownError)
    (h1 : run 1 = .error e1) (h2 : run 2 = .error e2) :
    (∀ d, run 3 = .ok d →
      (executeWithRetries ⟨3, b, exp⟩ version run).result.success = true ∧
      (executeWithRetries ⟨3, b, exp⟩ version run).result.data = some d ∧
      (executeWithRetries ⟨3, b, exp⟩ version run).result.metadata.attempts = 3 ∧
      (executeWithRetries ⟨3, b, exp⟩ version run).delays =
        [if exp then b * 2 ^ 0 else b, if exp then b * 2 ^ 1 else b]) ∧
    (∀ e3, run 3 = .error e3 →
      (executeWithRetries ⟨3, b, exp⟩ version run).result.success = false ∧
      (executeWithRetries ⟨3, b, exp⟩ version run).result.error =
        some (OrchestrationError.fromUnknown (some e3)) ∧
      (executeWithRetries ⟨3, b, exp⟩ version run).result.metadata.attempts = 3 ∧
      (executeWithRetries ⟨3, b, exp⟩ version run).delays =
        [if exp then b * 2 ^ 0 else b, if exp then b * 2 ^ 1 else b]) := by
  constructor
  · intro d h3
    simp [executeWithRetries, retryGo, h1, h2, h3, createSuccessResult]
  · intro e3 h3
    simp [executeWithRetries, retryGo, h1, h2, h3, createErrorResult]

/-- Witness for C3: a handler failing twice then succeeding, exponential
backoff 50ms. -/
theorem executeWithRetries_three_attempts_witness :
    ((fun n => if n < 3 then Except.error (ThrownError.other "boom")
        else Except.ok (JVal.num 7)) : Nat → Except ThrownError JVal) 1
        = .error (ThrownError.other "boom") ∧
    (executeWithRetries ⟨3, 50, true⟩ "1.0.0"
        (fun n => if n < 3 then .error (.other "boom") else .ok (.num 7))).result.success
        = true ∧
    (executeWithRetries ⟨3, 50, true⟩ "1.0.0"
        (fun n => if n < 3 then .error (.other "boom") else .ok (.num 7))).result.metadata.attempts
        = 3 ∧
    (executeWithRetries ⟨3, 50, true⟩ "1.0.0"
        (fun n => if n < 3 then .error (.other "boom") else .ok (.num 7))).delays
        = [50, 100] := by
  have h := (executeWithRetries_three_attempts 50 true "1.0.0"
    (fun n => if n < 3 then .error (.other "boom") else .ok (.num 7))
    (.other "boom") (.other "boom") rfl rfl).1 (.num 7) rfl
  exact ⟨rfl, h.1, h.2.2.1, by rw [h.2.2.2]; rfl⟩


/-- C4: the per-tool rate limiter is a fixed window: a first request starts
a window with counter 1; a request with `now - windowStart >= windowMs`
resets the counter to 1 and the window start to `now`; otherwise the request
is rejected with `RATE_LIMIT_EXCEEDED` iff the counter is already at the
limit, and admitted requests increment the counter.  Concretely, with
limit 2 and window 1000ms, of three calls inside one window the first two
succeed and the third fails, and a fourth call after the window elapses
succeeds. -/
theorem checkRateLimit_fixed_window (limits : List (String × RateLimitEntry))
    (tool : String) (rl : RateLimitCfg) (now : Nat) :
    (lookupKV limits tool = none →
      checkRateLimit limits tool rl now = .ok (mapSet limits tool ⟨1, now⟩)) ∧
    (∀ e, lookupKV limits tool = some e →
      (rl.windowMs ≤ now - e.windowStart →
        checkRateLimit limits tool rl now = .ok (mapSet limits tool ⟨1, now⟩)) ∧
      (now - e.windowStart < rl.windowMs →
        (rl.maxRequests ≤ e.requests →
          checkRateLimit limits tool rl now =
            .error (RateLimitError tool rl.maxRequests rl.windowMs)) ∧
        (e.requests < rl.maxRequests →
          checkRateLimit limits tool rl now =
            .ok (mapSet limits tool { e with requests := e.requests + 1 })))) ∧
    (checkRateLimit [] "t" ⟨2, 1000⟩ 0 = .ok [("t", ⟨1, 0⟩)] ∧
     checkRateLimit [("t", ⟨1, 0⟩)] "t" ⟨2, 1000⟩ 100 = .ok [("t", ⟨2, 0⟩)] ∧
     checkRateLimit [("t", ⟨2, 0⟩)] "t" ⟨2, 1000⟩ 900 =
       .error (RateLimitError "t" 2 1000) ∧
     checkRateLimit [("t", ⟨2, 0⟩)] "t" ⟨2, 1000⟩ 1000 = .ok [("t", ⟨1, 1000⟩)]) := by
  refine ⟨?_, ?_, rfl, rfl, rfl, rfl⟩
  · intro h
    simp [checkRateLimit, h]
  · intro e he
    refine ⟨?_, ?_⟩
    · intro hage
      simp [checkRateLimit, he, hage]
    · intro hage
      refine ⟨?_, ?_⟩
      · intro hreq
        simp [checkRateLimit, he, Nat.not_le.2 hage, hreq]
      · intro hreq
        simp [checkRateLimit, he, Nat.not_le.2 hage, Nat.not_le.2 hreq]

/-- Witness for C4: the first request for a tool starts a window with
counter 1. -/
theorem checkRateLimit_fixed_window_witness :
    lookupKV ([] : List (String × RateLimitEntry)) "t" = none ∧
      checkRateLimit [] "t" ⟨2, 1000⟩ 0 = .ok [("t", ⟨1, 0⟩)] := by
  exact ⟨rfl, (checkRateLimit_fixed_window [] "t" ⟨2, 1000⟩ 0).1 rfl⟩


/-- C6: when `executeTool` finds a (truthy) cached value for the computed
cache key, it returns a success result immediately with
`metadata.attempts = 0`, and the handler is not invoked at all for that
call: zero handler/hook/timeout invocations and no backoff sleeps. -/
theorem executeTool_cache_hit (config : OrchestratorConfig) (st : OrchestratorState)
    (toolName : String) (input : List (String × JVal)) (now : Nat)
    (tool : ToolDefinition) (handler : ToolHandler) (data : JVal)
    (newLimits : List (String × RateLimitEntry))
    (htool : lookupKV st.tools toolName = some tool)
    (hhandler : lookupKV st.handlers toolName = some handler)
    (hrl : rateLimitStep config st.rateLimits toolName tool now = .ok newLimits)
    (hval : validateInput tool input = none)
    (hcache : (cacheGet st.cache (generateCacheKey toolName input) now).1 = some data)
    (htruthy : isTruthy data = true) :
    (executeTool config st toolName input now).1 = createSuccessResult data tool.version 0 ∧
    (executeTool config st toolName input now).1.success = true ∧
    (executeTool config st toolName input now).1.metadata.attempts = 0 ∧
    (executeTool config st toolName input now).2.2 = ⟨0, 1, []⟩ := by
  simp [executeTool, htool, hhandler, hrl, hval, hcache, htruthy, createSuccessResult]


def toolW : ToolDefinition :=
  ⟨"lookup", "demo", "1.0.0", "utility", ⟨[], []⟩, none, none, none⟩

def handlerW : ToolHandler := ⟨fun _ _ => .ok (.num 7)⟩

def cfgW : OrchestratorConfig := ⟨⟨100, 1000, true⟩, 5000, true, true, ⟨3, 50, false⟩⟩

def stW6 : OrchestratorState :=
  ⟨[("lookup", toolW)], [("lookup", handlerW)],
    ⟨[(generateCacheKey "lookup" [], ⟨.num 7, 0, 1000, 0⟩)],
      [(generateCacheKey "lookup" [], 1)], 1, ⟨0, 0, 0⟩⟩,
    [], ⟨0, 0, [], [], 0⟩⟩

/-- Witness for C6: a pre-populated cache entry is served with 0 attempts
and no handler call. -/
theorem executeTool_cache_hit_witness :
    (cacheGet stW6.cache (generateCacheKey "lookup" []) 5).1 = some (.num 7) ∧
      (executeTool cfgW stW6 "lookup" [] 5).1.success = true ∧
      (executeTool cfgW stW6 "lookup" [] 5).1.metadata.attempts = 0 ∧
      (executeTool cfgW stW6 "lookup" [] 5).2.2 = ⟨0, 1, []⟩ := by
  have h := executeTool_cache_hit cfgW stW6 "lookup" [] 5 toolW handlerW (.num 7)
    stW6.rateLimits rfl rfl rfl rfl rfl rfl
  exact ⟨rfl, h.2.1, h.2.2.1, h.2.2.2⟩


/-- C7: when `executeTool` hits a rate-limit rejection or an
input-validation failure, the failure comes back as a failed
`ToolExecutionResult` (the total function returns, mirroring the caught
throw), with zero cache lookups, zero handler invocations and no retries
for that call. -/
theorem executeTool_shortcircuit (config : OrchestratorConfig) (st : OrchestratorState)
    (toolName : String) (input : List (String × JVal)) (now : Nat)
    (tool : ToolDefinition) (handler : ToolHandler) (e : OrchestrationError)
    (htool : lookupKV st.tools toolName = some tool)
    (hhandler : lookupKV st.handlers toolName = some handler) :
    (rateLimitStep config st.rateLimits toolName tool now = .error e →
      (executeTool config st toolName input now).1.success = false ∧
      (executeTool config st toolName input now).1.error = some e ∧
      (executeTool config st toolName input now).2.2 = ⟨0, 0, []⟩) ∧
    (∀ newLimits, rateLimitStep config st.rateLimits toolName tool now = .ok newLimits →
      validateInput tool input = some e →
      (executeTool config st toolName input now).1.success = false ∧
      (executeTool config st toolName input now).1.error = some e ∧
      (executeTool config st toolName input now).2.2 = ⟨0, 0, []⟩) := by
  constructor
  · intro hrl
    simp [executeTool, htool, hhandler, hrl, createErrorResult, OrchestrationError.fromUnknown]
  · intro newLimits hrl hval
    simp [executeTool, htool, hhandler, hrl, hval, createErrorResult,
      OrchestrationError.fromUnknown]

def toolR : ToolDefinition :=
  ⟨"limited", "demo", "1.0.0", "utility", ⟨["name"], [("name", ⟨some "string"⟩)]⟩,
    some ⟨2, 1000⟩, none, none⟩

def stW7 : OrchestratorState :=
  ⟨[("limited", toolR)], [("limited", handlerW)], CacheState.empty JVal,
    [("limited", ⟨2, 0⟩)], ⟨0, 0, [], [], 0⟩⟩

/-- Witness for C7: a tool whose window counter is at its limit is
rejected without cache lookup or execution. -/
theorem executeTool_shortcircuit_witness :
    rateLimitStep cfgW stW7.rateLimits "limited" toolR 100 =
      .error (RateLimitError "limited" 2 1000) ∧
    (executeTool cfgW stW7 "limited" [("name", .str "ditto")] 100).1.success = false ∧
    (executeTool cfgW stW7 "limited" [("name", .str "ditto")] 100).1.error =
      some (RateLimitError "limited" 2 1000) ∧
    (executeTool cfgW stW7 "limited" [("name", .str "ditto")] 100).2.2 = ⟨0, 0, []⟩ := by
  have h := (executeTool_shortcircuit cfgW stW7 "limited" [("name", .str "ditto")] 100
    toolR handlerW (RateLimitError "limited" 2 1000) rfl rfl).1 rfl
  exact ⟨rfl, h.1, h.2.1, h.2.2⟩


def st9 : OrchestratorState :=
  ⟨[("lookup", toolW)], [("lookup", handlerW)], CacheState.empty JVal, [],
    ⟨0, 0, [], [], 0⟩⟩

def st9a : OrchestratorState := (executeTool cfgW st9 "lookup" [] 0).2.1

def st9b : OrchestratorState := (executeTool cfgW st9a "lookup" [] 0).2.1

/-- C9: a cache-hit execution increments `totalRequests` but returns before
`successfulRequests` is incremented, so after a successful execution
followed by a cache-hit call of the same tool and input — every call
returning `success = true` — the success rate is 1/2 < 1 and `healthCheck`
reports "unhealthy" under entirely successful, cache-heavy traffic. -/
theorem cacheHit_skews_successRate :
    (executeTool cfgW st9 "lookup" [] 0).1.success = true ∧
    (executeTool cfgW st9a "lookup" [] 0).1.success = true ∧
    (executeTool cfgW st9a "lookup" [] 0).1.metadata.attempts = 0 ∧
    st9b.metrics.totalRequests = 2 ∧
    st9b.metrics.successfulRequests = 1 ∧
    successRate st9b < 1 ∧
    healthStatus st9b = "unhealthy" := by
  have h1 : st9b.metrics.totalRequests = 2 := rfl
  have h2 : st9b.metrics.successfulRequests = 1 := rfl
  have hrate : successRate st9b = 1 / 2 := by
    simp only [successRate, h1, h2]
    norm_num
  refine ⟨rfl, rfl, rfl, rfl, rfl, ?_, ?_⟩
  · rw [hrate]
    norm_num
  · simp only [healthStatus, hrate]
    norm_num


def inputsA : List (String × JVal) := [("q", .obj [("x", .num 1)])]

def inputsB : List (String × JVal) := [("q", .obj [("x", .num 2)])]

def handlerEcho : ToolHandler :=
  ⟨fun ctx _ =>
    match lookupKV ctx.input "q" with
    | some (.obj ((_, .num n) :: _)) => .ok (.num n)
    | _ => .ok (.num 0)⟩

def st10 : OrchestratorState :=
  ⟨[("lookup", toolW)], [("lookup", handlerEcho)], CacheState.empty JVal, [],
    ⟨0, 0, [], [], 0⟩⟩

def st10a : OrchestratorState := (executeTool cfgW st10 "lookup" inputsA 0).2.1

set_option maxRecDepth 4000 in
/-- C10: `generateCacheKey` passes the sorted top-level key list as the
`JSON.stringify` replacer, which filters nested objects down to those same
names; the inputs `{q: {x: 1}}` and `{q: {x: 2}}` share identical top-level
keys, differ only in the nested field `x` (not among the top-level keys),
and collide to the same cache key — so `executeTool` serves the first
input's cached result (`1`) for the second input, whose handler would have
produced `2`, with zero handler invocations. -/
theorem nested_field_cache_collision :
    inputsA.map Prod.fst = ["q"] ∧
    inputsB.map Prod.fst = ["q"] ∧
    lookupKV inputsA "q" = some (.obj [("x", .num 1)]) ∧
    lookupKV inputsB "q" = some (.obj [("x", .num 2)]) ∧
    generateCacheKey "lookup" inputsA = generateCacheKey "lookup" inputsB ∧
    (executeTool cfgW st10 "lookup" inputsA 0).1.data = some (.num 1) ∧
    handlerEcho.execute ⟨"lookup", inputsB, "req", 0⟩ 1 = .ok (.num 2) ∧
    (executeTool cfgW st10a "lookup" inputsB 0).1.data = some (.num 1) ∧
    (executeTool cfgW st10a "lookup" inputsB 0).1.metadata.attempts = 0 ∧
    (executeTool cfgW st10a "lookup" inputsB 0).2.2.handlerCalls = 0 := by
  exact ⟨rfl, rfl, rfl, rfl, rfl, rfl, rfl, rfl, rfl, rfl⟩

/-! ## JSON.parse — used by the streaming driver at tool-call block stop
(route.ts:155).  A recursive-descent parser for JSON text over `JVal`;
numbers are restricted to integer syntax, matching the integer-only `JVal`
model (no claim input involves fractions or exponents).  `fuel` bounds the
recursion; `length + 1` always suffices because every recursive call
consumes input. -/

def isWsChar (c : Char) : Bool :=
  c = ' ' ∨ c.toNat = 9 ∨ c.toNat = 10 ∨ c.toNat = 13

def skipWs : List Char → List Char
  | [] => []
  | c :: rest => if isWsChar c then skipWs rest else c :: rest

def hexVal (c : Char) : Option Nat :=
  if 48 ≤ c.toNat ∧ c.toNat ≤ 57 then some (c.toNat - 48)
  else if 97 ≤ c.toNat ∧ c.toNat ≤ 102 then some (c.toNat - 87)
  else if 65 ≤ c.toNat ∧ c.toNat ≤ 70 then some (c.toNat - 55)
  else none

/-- Body of a JSON string after the opening quote: returns the decoded
characters and the input past the closing quote.  Raw control characters
are rejected, escapes are decoded. -/
def parseStringBody : Nat → List Char → Option (List Char × List Char)
  | 0, _ => none
  | fuel + 1, cs =>
    match cs with
    | [] => none
    | c :: rest =>
      if c = '"' then some ([], rest)
      else if c = '\\' then
        match rest with
        | '"' :: r => (parseStringBody fuel r).map (fun p => ('"' :: p.1, p.2))
        | '\\' :: r => (parseStringBody fuel r).map (fun p => ('\\' :: p.1, p.2))
        | '/' :: r => (parseStringBody fuel r).map (fun p => ('/' :: p.1, p.2))
        | 'b' :: r => (parseStringBody fuel r).map (fun p => (Char.ofNat 8 :: p.1, p.2))
        | 'f' :: r => (parseStringBody fuel r).map (fun p => (Char.ofNat 12 :: p.1, p.2))
        | 'n' :: r => (parseStringBody fuel r).map (fun p => (Char.ofNat 10 :: p.1, p.2))
        | 'r' :: r => (parseStringBody fuel r).map (fun p => (Char.ofNat 13 :: p.1, p.2))
        | 't' :: r => (parseStringBody fuel r).map (fun p => (Char.ofNat 9 :: p.1, p.2))
        | 'u' :: h1 :: h2 :: h3 :: h4 :: r =>
          match hexVal h1, hexVal h2, hexVal h3, hexVal h4 with
          | some a, some b, some c2, some d =>
            (parseStringBody fuel r).map
              (fun p => (Char.ofNat (a * 4096 + b * 256 + c2 * 16 + d) :: p.1, p.2))
          | _, _, _, _ => none
        | _ => none
      else if c.toNat < 32 then none
      else (parseStringBody fuel rest).map (fun p => (c :: p.1, p.2))

/-- Maximal ASCII-digit prefix. -/
def spanDigits : List Char → List Char × List Char
  | [] => ([], [])
  | c :: rest =>
    if 48 ≤ c.toNat ∧ c.toNat ≤ 57 then
      let p := spanDigits rest
      (c :: p.1, p.2)
    else ([], c :: rest)

def digitsToNat (ds : List Char) : Nat :=
  ds.foldl (fun acc c => acc * 10 + (c.toNat - 48)) 0

/-- JSON number with integer syntax: optional minus, `0` or a nonzero-led
digit run; fraction/exponent suffixes are outside the integer model. -/
def parseNumber (cs : List Char) : Option (Int × List Char) :=
  let p : Bool × List Char := match cs with | '-' :: r => (true, r) | _ => (false, cs)
  match spanDigits p.2 with
  | ([], _) => none
  | (ds, rest) =>
    if 1 < ds.length ∧ ds.head? = some '0' then none
    else
      match rest with
      | '.' :: _ => none
      | 'e' :: _ => none
      | 'E' :: _ => none
      | _ =>
        let n : Int := Int.ofNat (digitsToNat ds)
        some (if p.1 then -n else n, rest)

mutual

def parseVal : Nat → List Char → Option (JVal × List Char)
  | 0, _ => none
  | fuel + 1, cs =>
    match skipWs cs with
    | [] => none
    | c :: rest =>
      if c = '"' then
        match parseStringBody (rest.length + 1) rest with
        | some (content, r) => some (.str (String.mk content), r)
        | none => none
      else if c = 't' then
        match rest with
        | 'r' :: 'u' :: 'e' :: r => some (.bool true, r)
        | _ => none
      else if c = 'f' then
        match rest with
        | 'a' :: 'l' :: 's' :: 'e' :: r => some (.bool false, r)
        | _ => none
      else if c = 'n' then
        match rest with
        | 'u' :: 'l' :: 'l' :: r => some (.null, r)
        | _ => none
      else if c.toNat = 123 then
        match skipWs rest with
        | c2 :: r2 =>
          if c2.toNat = 125 then some (.obj [], r2)
          else
            match parseMember fuel rest with
            | some (kv, r) =>
              match parseMembersRest fuel [kv] r with
              | some (kvs, r3) => some (.obj kvs, r3)
              | none => none
            | none => none
        | [] => none
      else if c = '[' then
        match skipWs rest with
        | c2 :: r2 =>
          if c2 = ']' then some (.arr [], r2)
          else
            match parseVal fuel rest with
            | some (v, r) =>
              match parseElemsRest fuel [v] r with
              | some (vs, r3) => some (.arr vs, r3)
              | none => none
            | none => none
        | [] => none
      else
        match parseNumber (c :: rest) with
        | some (n, r) => some (.num n, r)
        | none => none

def parseMember : Nat → List Char → Option ((String × JVal) × List Char)
  | 0, _ => none
  | fuel + 1, cs =>
    match skipWs cs with
    | '"' :: rest =>
      match parseStringBody (rest.length + 1) rest with
      | some (key, r1) =>
        match skipWs r1 with
        | ':' :: r2 =>
          match parseVal fuel r2 with
          | some (v, r3) => some ((String.mk key, v), r3)
          | none => none
        | _ => none
      | none => none
    | _ => none

def parseMembersRest :
    Nat → List (String × JVal) → List Char → Option (List (String × JVal) × List Char)
  | 0, _, _ => none
  | fuel + 1, acc, cs =>
    match skipWs cs with
    | c :: rest =>
      if c = ',' then
        match parseMember fuel rest with
        | some (kv, r) => parseMembersRest fuel (acc ++ [kv]) r
        | none => none
      else if c.toNat = 125 then some (acc, rest)
      else none
    | [] => none

def parseElemsRest : Nat → List JVal → List Char → Option (List JVal × List Char)
  | 0, _, _ => none
  | fuel + 1, acc, cs =>
    match skipWs cs with
    | c :: rest =>
      if c = ',' then
        match parseVal fuel rest with
        | some (v, r) => parseElemsRest fuel (acc ++ [v]) r
        | none => none
      else if c = ']' then some (acc, rest)
      else none
    | [] => none

end

/-- `JSON.parse` on a whole string: `none` models a thrown `SyntaxError`. -/
def jsonParse (s : String) : Option JVal :=
  match parseVal (s.length + 1) s.toList with
  | some (v, rest) => if skipWs rest = [] then some v else none
  | none => none

/-! ## Streaming conversation driver (route.ts processConversation) -/

/-- The model-stream events consumed by the `for await` loop
(route.ts:120-167), restricted to the chunk shapes the loop inspects. -/
inductive StreamChunk where
  | block_start_text
  | block_start_tool (id name : String)
  | delta_text (text : String)
  | delta_input_json (partialJson : String)
  | block_stop
  | message_stop
deriving DecidableEq, Repr

/-- An accumulated assistant content block (`fullMessage.content`). -/
inductive ContentBlock where
  | text (text : String)
  | tool_use (id name : String) (input : JVal)

/-- Which block the loop's `currentTextBlock`/`currentToolBlock` pointers
reference; a tool pointer carries `toolInputBuffer`. -/
inductive CurPtr where
  | none
  | text
  | tool (buffer : String)

/-- Loop state: `blocksRev` is `fullMessage.content` newest-first (a
just-started block is the head, matching the in-place mutation of the
pushed object), plus `hasToolUse`, the text deltas forwarded to the client
so far, and whether `message_stop` broke the loop. -/
structure StreamAcc where
  blocksRev : List ContentBlock
  cur : CurPtr
  hasToolUse : Bool
  textEvents : List String
  stopped : Bool

def StreamAcc.init : StreamAcc := ⟨[], .none, false, [], false⟩

def appendTextToHead (blocks : List ContentBlock) (t : String) : List ContentBlock :=
  match blocks with
  | .text s :: rest => .text (s ++ t) :: rest
  | other => other

def setHeadToolInput (blocks : List ContentBlock) (input : JVal) : List ContentBlock :=
  match blocks with
  | .tool_use id name _ :: rest => .tool_use id name input :: rest
  | other => other

/-- One iteration of the `for await (chunk of response)` loop
(route.ts:120-167).  After `message_stop` the loop has exited (`break`), so
further chunks are ignored. -/
def stepChunk (st : StreamAcc) (c : StreamChunk) : StreamAcc :=
  if st.stopped then st
  else
    match c with
    | .block_start_text =>
      { st with blocksRev := .text "" :: st.blocksRev, cur := .text }
    | .block_start_tool id name =>
      { st with
        hasToolUse := true
        blocksRev := .tool_use id name (.obj []) :: st.blocksRev
        cur := .tool "" }
    | .delta_text t =>
      match st.cur with
      | .text =>
        if t = "" then st
        else
          { st with
            blocksRev := appendTextToHead st.blocksRev t
            textEvents := st.textEvents ++ [t] }
      | _ => st
    | .delta_input_json pj =>
      match st.cur with
      | .tool buf => { st with cur := .tool (buf ++ pj) }
      | _ => st
    | .block_stop =>
      match st.cur with
      | .tool buf =>
        if buf = "" then { st with cur := .none }
        else
          let input := match jsonParse buf with | some v => v | none => .obj []
          { st with blocksRev := setHeadToolInput st.blocksRev input, cur := .none }
      | _ => { st with cur := .none }
    | .message_stop => { st with stopped := true }

/-- The whole accumulation loop over a model stream. -/
def accumulateStream (chunks : List StreamChunk) : StreamAcc :=
  chunks.foldl stepChunk StreamAcc.init

/-- Client-visible newline-delimited events (route.ts enqueues). -/
inductive ChatEvent where
  | text (content : String)
  | tool_result (toolName : String)
  | error (content : String)
  | done
deriving DecidableEq, Repr

/-- Conversation history messages as the driver builds them. -/
inductive Msg where
  | system (content : String)
  | user_text (content : String)
  | assistant (blocks : List ContentBlock)
  | tool_results (results : List (String × String))

/-- `processConversation` (route.ts:91-256).  The model is an oracle from
the current history to its streamed chunks; `execFn` abstracts the
orchestrator call plus `JSON.stringify` of the tool result (route.ts:186-198,
failures are folded into the payload, never thrown).  Returns the client
events emitted from this frame on, and the number of model round-trips
(`anthropic.messages.create` calls) performed. -/
def processConversation (model : List Msg → List StreamChunk)
    (execFn : String → JVal → String) (messages : List Msg) (depth : Nat) :
    List ChatEvent × Nat :=
  if 5 < depth then
    ([.error "Maximum conversation depth reached", .done], 0)
  else
    let chunks := model messages
    let acc := accumulateStream chunks
    let blocks := acc.blocksRev.reverse
    let textEvents := acc.textEvents.map ChatEvent.text
    if acc.hasToolUse then
      let toolBlocks := blocks.filterMap
        (fun b => match b with
          | .tool_use id name input => some (id, name, input)
          | _ => none)
      let trEvents := toolBlocks.map (fun t => ChatEvent.tool_result t.2.1)
      let toolResults := toolBlocks.map (fun t => (t.1, execFn t.2.1 t.2.2))
      let updatedMessages := messages ++ [.assistant blocks, .tool_results toolResults]
      if depth < 2 then
        let rec2 := processConversation model execFn updatedMessages (depth + 1)
        (textEvents ++ trEvents ++ rec2.1, 1 + rec2.2)
      else
        (textEvents ++ trEvents ++ [.done], 1)
    else
      (textEvents ++ [.done], 1)
  termination_by 6 - depth
  decreasing_by omega

theorem count_done_map_text (l : List String) :
    (l.map ChatEvent.text).count ChatEvent.done = 0 := by
  rw [List.count_eq_zero]
  simp

theorem count_done_map_tool_result (l : List (String × String × JVal)) :
    (l.map (fun t => ChatEvent.tool_result t.2.1)).count ChatEvent.done = 0 := by
  rw [List.count_eq_zero]
  simp

theorem processConversation_depth2 (model : List Msg → List StreamChunk)
    (execFn : String → JVal → String)
    (hm : ∀ msgs, (accumulateStream (model msgs)).hasToolUse = true) (msgs : List Msg) :
    (processConversation model execFn msgs 2).2 = 1 ∧
    (processConversation model execFn msgs 2).1.count ChatEvent.done = 1 ∧
    (processConversation model execFn msgs 2).1.getLast? = some ChatEvent.done := by
  rw [processConversation]
  simp only [hm msgs]
  norm_num [List.count_append, count_done_map_text, count_done_map_tool_result]


theorem getLast?_append3 {α : Type} {C : List α} (A B : List α) {x : α}
    (h : C.getLast? = some x) : (A ++ B ++ C).getLast? = some x := by
  have hC : C ≠ [] := by
    intro hnil
    rw [hnil] at h
    simp at h
  have hBC : B ++ C ≠ [] := by
    intro hnil
    exact hC (List.append_eq_nil.mp hnil).2
  rw [List.append_assoc, List.getLast?_append_of_ne_nil _ hBC,
    List.getLast?_append_of_ne_nil _ hC, h]

theorem processConversation_depth1 (model : List Msg → List StreamChunk)
    (execFn : String → JVal → String)
    (hm : ∀ msgs, (accumulateStream (model msgs)).hasToolUse = true) (msgs : List Msg) :
    (processConversation model execFn msgs 1).2 = 2 ∧
    (processConversation model execFn msgs 1).1.count ChatEvent.done = 1 ∧
    (processConversation model execFn msgs 1).1.getLast? = some ChatEvent.done := by
  rw [processConversation]
  rw [if_neg (show ¬ (5:Nat) < 1 from by omega)]
  simp only [hm msgs, if_true, if_pos (show (1:Nat) < 2 from by omega)]
  have h11 : (1 + 1 : Nat) = 2 := rfl
  rw [h11]
  obtain ⟨hc, hcount, hlast⟩ := processConversation_depth2 model execFn hm
    (msgs ++ [.assistant (accumulateStream (model msgs)).blocksRev.reverse,
      .tool_results (List.map (fun t => (t.1, execFn t.2.1 t.2.2))
        (List.filterMap
          (fun b => match b with
            | ContentBlock.tool_use id name input => some (id, name, input)
            | _ => none)
          (accumulateStream (model msgs)).blocksRev.reverse))])
  refine ⟨?_, ?_, ?_⟩
  · rw [hc]
  · rw [List.count_append, List.count_append, count_done_map_text,
      count_done_map_tool_result, hcount]
  · exact getLast?_append3 _ _ hlast


/-- C1: for every model that emits a tool-call block in each of its
responses, a turn started by `processConversation` at depth 0 performs
exactly 3 model round-trips (the `depth < 2` guard admits recursion from
depths 0 and 1, so model calls happen at depths 0, 1 and 2 — one more than
the stated bound of 2), and the client-visible stream terminates with
exactly one `done` event, which is the last event emitted. -/
theorem processConversation_always_tool (model : List Msg → List StreamChunk)
    (execFn : String → JVal → String)
    (hm : ∀ msgs, (accumulateStream (model msgs)).hasToolUse = true) (messages : List Msg) :
    (processConversation model execFn messages 0).2 = 3 ∧
    (processConversation model execFn messages 0).1.count ChatEvent.done = 1 ∧
    (processConversation model execFn messages 0).1.getLast? = some ChatEvent.done := by
  rw [processConversation]
  rw [if_neg (show ¬ (5:Nat) < 0 from by omega)]
  simp only [hm messages, if_true, if_pos (show (0:Nat) < 2 from by omega)]
  have h01 : (0 + 1 : Nat) = 1 := rfl
  rw [h01]
  obtain ⟨hc, hcount, hlast⟩ := processConversation_depth1 model execFn hm
    (messages ++ [.assistant (accumulateStream (model messages)).blocksRev.reverse,
      .tool_results (List.map (fun t => (t.1, execFn t.2.1 t.2.2))
        (List.filterMap
          (fun b => match b with
            | ContentBlock.tool_use id name input => some (id, name, input)
            | _ => none)
          (accumulateStream (model messages)).blocksRev.reverse))])
  refine ⟨?_, ?_, ?_⟩
  · rw [hc]
  · rw [List.count_append, List.count_append, count_done_map_text,
      count_done_map_tool_result, hcount]
  · exact getLast?_append3 _ _ hlast

def alwaysToolModel : List Msg → List StreamChunk := fun _ =>
  [.block_start_tool "toolu_1" "get_pokemon", .delta_input_json "\x7b\x7d",
    .block_stop, .message_stop]

def constExecFn : String → JVal → String := fun _ _ => "\x7b\x7d"

/-- Witness for C1: a model answering every request with one tool-call
block; the turn performs 3 round-trips and emits a single trailing
`done`. -/
theorem processConversation_always_tool_witness :
    (∀ msgs, (accumulateStream (alwaysToolModel msgs)).hasToolUse = true) ∧
    (processConversation alwaysToolModel constExecFn [.system "s"] 0).2 = 3 ∧
    (processConversation alwaysToolModel constExecFn [.system "s"] 0).1.count
      ChatEvent.done = 1 ∧
    (processConversation alwaysToolModel constExecFn [.system "s"] 0).1.getLast?
      = some ChatEvent.done := by
  have h := processConversation_always_tool alwaysToolModel constExecFn
    (fun _ => rfl) [.system "s"]
  exact ⟨fun _ => rfl, h.1, h.2.1, h.2.2⟩


/-- C8: at a block-stop event for a tool-call block the accumulated
argument buffer is parsed as one JSON object: the fragments
`\x7b"a":1` and `,"b":2\x7d` delivered as two separate deltas parse to
the object `\x7ba: 1, b: 2\x7d`; a malformed final buffer (`JSON.parse`
returning no value, the thrown `SyntaxError` being caught) defaults the
tool input to the empty object — the loop embedding is total, so no parse
failure escapes it. -/
theorem toolInput_fragment_parsing :
    (accumulateStream [.block_start_tool "id1" "t",
        .delta_input_json "\x7b\"a\":1", .delta_input_json ",\"b\":2\x7d",
        .block_stop]).blocksRev
      = [.tool_use "id1" "t" (.obj [("a", .num 1), ("b", .num 2)])] ∧
    jsonParse ("\x7b\"a\":1" ++ ",\"b\":2\x7d") =
      some (.obj [("a", .num 1), ("b", .num 2)]) ∧
    jsonParse "\x7b\"a\":" = none ∧
    (accumulateStream [.block_start_tool "id1" "t",
        .delta_input_json "\x7b\"a\":", .block_stop]).blocksRev
      = [.tool_use "id1" "t" (.obj [])] := by
  exact ⟨rfl, rfl, rfl, rfl⟩

end Pokedex
